import Mathlib

set_option autoImplicit false

namespace Sidecar

/-!
Shallow embedding of the sidecar symbol router ("locker") and capability
broker, translated from:
  sidecar/src/agentic/symbol/locker.rs
  sidecar/src/agentic/symbol/tool_box.rs  (check_code_correctness, find_snippet_for_symbol)
  sidecar/src/agentic/tool/broker.rs      (ToolBroker::invoke, ToolBroker::with_mcp)
  sidecar/src/agentic/tool/mcp/integration_tool.rs (generate_schema_usage, DynamicMCPTool)
  sidecar/src/agentic/tool/lsp/quick_fix.rs
Asynchrony is embedded by explicit state passing; fallible calls return
Except; panics (todo!/unwrap) are modelled by an explicit panic outcome or
by Option none.
-/

/-- Association-list lookup, modelling `HashMap::get` (first binding wins;
`insert` is modelled by consing, so the freshest binding shadows older ones). -/
def assocLookup {α β : Type} [DecidableEq α] : List (α × β) → α → Option β
  | [], _ => none
  | p :: rest, k => if p.1 = k then some p.2 else assocLookup rest k

/-- JSON values, modelling `serde_json::Value` as used by the MCP integration
(numbers are irrelevant to the embedded code paths and carried as Int). -/
inductive JsonV : Type where
  | null : JsonV
  | bool : Bool → JsonV
  | num : Int → JsonV
  | str : String → JsonV
  | arr : List JsonV → JsonV
  | obj : List (String × JsonV) → JsonV

/-- Models `Value::get(key)` on JSON objects. -/
def JsonV.get : JsonV → String → Option JsonV
  | JsonV.obj fields, key => assocLookup fields key
  | _, _ => none

/-- Models `Value::as_object()`. -/
def JsonV.as_object : JsonV → Option (List (String × JsonV))
  | JsonV.obj fields => some fields
  | _ => none

/-- Models `Value::as_array()`. -/
def JsonV.as_array : JsonV → Option (List JsonV)
  | JsonV.arr xs => some xs
  | _ => none

/-- Models `Value::as_str()`. -/
def JsonV.as_str : JsonV → Option String
  | JsonV.str s => some s
  | _ => none

/-- Models `generate_schema_usage` from integration_tool.rs (lines 79-122).
The source does `schema.get("properties").and_then(|p| p.as_object()).unwrap()`:
the unwrap panics when the schema has no "properties" key holding a JSON
object; the panic is modelled by returning `none`. The `required` set is
modelled by a list with membership lookup. -/
def generate_schema_usage (tool_name : String) (schema : JsonV) : Option String :=
  match (schema.get "properties").bind JsonV.as_object with
  | none => none
  | some props =>
    let required_fields : List String :=
      (((schema.get "required").bind JsonV.as_array).map
        (fun arr => arr.filterMap JsonV.as_str)).getD []
    let param_lines : String := props.foldl
      (fun usage field =>
        let field_name := field.1
        let desc := ((field.2.get "description").bind JsonV.as_str).getD ""
        let tpe := ((field.2.get "type").bind JsonV.as_str).getD "string"
        let is_required := required_fields.contains field_name
        usage ++ "- " ++ field_name ++ ": ("
          ++ (if is_required then "required" else "optional") ++ ") "
          ++ desc ++ ", type=" ++ tpe ++ "\n")
      ""
    let usage := "Parameters:\n" ++ param_lines ++ "\nUsage:\n" ++ "<" ++ tool_name ++ ">\n"
    let usage := props.foldl
      (fun u field => u ++ "<" ++ field.1 ++ ">\nvalue\n</" ++ field.1 ++ ">\n") usage
    some (usage ++ "</" ++ tool_name ++ ">\n")

/-- The capability tags, modelling the subset of `ToolType` the embedded code
paths touch; dynamically discovered MCP capabilities carry their synthesized
tool name, as in `ToolType::DynamicMCPTool(name)`. -/
inductive ToolType : Type where
  | codeEditing
  | lspDiagnostics
  | getQuickFix
  | applyQuickFix
  | openFile
  | dynamicMCPTool (tool_name : String)
deriving DecidableEq

/-- Models the subset of `ToolError` variants produced by the embedded code. -/
inductive ToolError : Type where
  | missingTool
  | wrongToolInput (tool_type : ToolType)
  | invalidInput (msg : String)
  | invocationError (msg : String)
  | serdeConversionFailed
  | errorCommunicatingWithEditor
deriving DecidableEq

/-- Models `LSPQuickFixInvocationResponse` from quick_fix.rs. -/
structure LSPQuickFixInvocationResponse where
  request_id : String
  invocation_success : Bool
deriving DecidableEq

/-- Models `LSPQuickFixInvocationResponse::is_success`. -/
def LSPQuickFixInvocationResponse.is_success (r : LSPQuickFixInvocationResponse) : Bool :=
  r.invocation_success

/-- Models the dynamic MCP tool-call payload (`DynamicMCPToolPartial`):
the target tool name plus string-valued fields. -/
structure MCPToolCallInput where
  tool_name : String
  fields : List (String × String)

/-- Models the subset of `ToolInput` variants the embedded code paths touch. -/
inductive ToolInput : Type where
  | codeEditing (payload : String)
  | quickFixInvocationRequest (request_id : String) (index : Int) (editor_url : String)
  | openFileRequest (fs_file_path : String)
  | dynamicMCPToolCall (input : MCPToolCallInput)

/-- Models `ToolInput::tool_type`: the tag carried by a request. -/
def ToolInput.tool_type : ToolInput → ToolType
  | ToolInput.codeEditing _ => ToolType.codeEditing
  | ToolInput.quickFixInvocationRequest _ _ _ => ToolType.applyQuickFix
  | ToolInput.openFileRequest _ => ToolType.openFile
  | ToolInput.dynamicMCPToolCall p => ToolType.dynamicMCPTool p.tool_name

/-- Models the subset of `ToolOutput` variants the embedded code produces. -/
inductive ToolOutput : Type where
  | mcpIntegration (result : JsonV)
  | quickFixInvocationResult (response : LSPQuickFixInvocationResponse)
  | codeEdited (code : String)

/-- Models a boxed `dyn Tool`: its invoke behaviour plus the describing
strings; `tool_input_format` is Option-valued because the dynamic MCP tool's
format synthesis can panic (modelled as `none`). -/
structure Tool where
  invoke : ToolInput → Except ToolError ToolOutput
  tool_description : String
  tool_input_format : Option String

/-- Models `ToolBroker`: the registry from capability tag to implementation
(`HashMap<ToolType, Box<dyn Tool>>`, embedded as an association list whose
freshest binding wins). -/
structure ToolBroker where
  tools : List (ToolType × Tool)

/-- Models `ToolBroker::invoke` (broker.rs lines 569-581): look up the
input's tag; dispatch to the registered implementation, else return
`ToolError::MissingTool` without calling any implementation. -/
def ToolBroker.invoke (b : ToolBroker) (input : ToolInput) : Except ToolError ToolOutput :=
  match assocLookup b.tools input.tool_type with
  | some tool => tool.invoke input
  | none => Except.error ToolError.missingTool

/-- Models `ToolInfo` as listed by an MCP server: name, description and the
JSON input schema. -/
structure ToolInfo where
  name : String
  description : String
  input_schema : JsonV

/-- Models an MCP client handle: the (single) `list_tools` call made during
broker construction, and `call_tool` for later invocations. -/
structure MCPClient where
  list_tools_result : Except String (List ToolInfo)
  call_tool : String → JsonV → Except String JsonV

/-- Models `DynamicMCPTool` from integration_tool.rs. -/
structure DynamicMCPTool where
  server_name : String
  tool_name : String
  description : String
  schema : JsonV
  client : MCPClient

/-- Models `DynamicMCPTool::tool_input_format` (integration_tool.rs lines
185-187): delegates to `generate_schema_usage` on the provider-supplied
schema; `none` models the panic of the unwrapped properties lookup. -/
def DynamicMCPTool.tool_input_format (t : DynamicMCPTool) : Option String :=
  generate_schema_usage t.tool_name t.schema

/-- Models `DynamicMCPTool::invoke` (integration_tool.rs lines 125-174). -/
def DynamicMCPTool.invoke (t : DynamicMCPTool) (input : ToolInput) :
    Except ToolError ToolOutput :=
  match input with
  | ToolInput.dynamicMCPToolCall p =>
    if p.tool_name ≠ t.tool_name then
      Except.error (ToolError.invalidInput
        ("DynamicMCPTool mismatch: local tool=" ++ t.tool_name
          ++ " but user input=" ++ p.tool_name))
    else
      let arguments := JsonV.obj (p.fields.map (fun kv => (kv.1, JsonV.str kv.2)))
      match t.client.call_tool t.tool_name arguments with
      | Except.error e =>
          Except.error (ToolError.invocationError
            ("Failed calling dynamic tool " ++ t.tool_name ++ " on server "
              ++ t.server_name ++ ": " ++ e))
      | Except.ok value => Except.ok (ToolOutput.mcpIntegration value)
  | _ => Except.error (ToolError.wrongToolInput (ToolType.dynamicMCPTool t.tool_name))

/-- Packages a `DynamicMCPTool` as a boxed `dyn Tool`, as
`Box::new(dyn_tool)` does in `with_mcp`. -/
def DynamicMCPTool.toTool (t : DynamicMCPTool) : Tool :=
  { invoke := t.invoke,
    tool_description :=
      "### " ++ t.tool_name ++ "\n(mcp server=" ++ t.server_name ++ ")\n" ++ t.description,
    tool_input_format := t.tool_input_format }

/-- Models the inner loop of `ToolBroker::with_mcp` over one server's listed
tools: bail out on a name already present in `known_tool_names`, otherwise
record the name and register the dynamic tool. -/
def registerServerTools (server_name : String) (client : MCPClient) :
    List ToolInfo → List (String × String) → ToolBroker →
    Except String (List (String × String) × ToolBroker)
  | [], known, broker => Except.ok (known, broker)
  | tool_info :: rest, known, broker =>
    match assocLookup known tool_info.name with
    | some conflict =>
        Except.error ("Duplicate dynamic tool name " ++ tool_info.name
          ++ " found: server " ++ conflict ++ " vs " ++ server_name)
    | none =>
        let dyn_tool : DynamicMCPTool :=
          { server_name := server_name, tool_name := tool_info.name,
            description := tool_info.description, schema := tool_info.input_schema,
            client := client }
        registerServerTools server_name client rest
          ((tool_info.name, server_name) :: known)
          { tools := (ToolType.dynamicMCPTool tool_info.name, dyn_tool.toTool) :: broker.tools }

/-- Models the outer loop of `ToolBroker::with_mcp` over the discovered
servers: a failing `list_tools` aborts construction with a wrapped error. -/
def withMCPGo : List (String × MCPClient) → List (String × String) → ToolBroker →
    Except String ToolBroker
  | [], _, broker => Except.ok broker
  | (server_name, client) :: rest, known, broker =>
    match client.list_tools_result with
    | Except.error e =>
        Except.error ("Failed listing tools from server " ++ server_name ++ ": " ++ e)
    | Except.ok tools =>
      match registerServerTools server_name client tools known broker with
      | Except.error e => Except.error e
      | Except.ok kb => withMCPGo rest kb.1 kb.2

/-- Models `ToolBroker::with_mcp` (broker.rs lines 507-555): an empty client
set returns the broker unchanged; otherwise every server's tools are
registered under a duplicate-name check that fails construction. -/
def ToolBroker.with_mcp (broker : ToolBroker) (clients : List (String × MCPClient)) :
    Except String ToolBroker :=
  if clients.isEmpty then Except.ok broker
  else withMCPGo clients [] broker

/-- Modelled from the spec: `SymbolIdentifier` (identifier.rs is not among
the sources) — symbol name plus optional file path, equal iff both components
match exactly; used as the routing key. -/
structure SymbolIdentifier where
  symbol_name : String
  fs_file_path : Option String
deriving DecidableEq

/-- Modelled from the spec: `Snippet` (identifier.rs is not among the
sources) — a located code symbol: name, owning file path and raw content
(the range and outline-node reference play no role in the embedded paths). -/
structure Snippet where
  symbol_name : String
  fs_file_path : String
  content : String
deriving DecidableEq

/-- Modelled from the spec: the `SymbolError` variants the embedded paths
produce (errors.rs is not among the sources): resolution errors, wrong tool
output, wrapped tool errors, and actor-construction failure. -/
inductive SymbolError : Type where
  | snippetNotFound
  | outlineNodeNotFound
  | wrongToolOutput
  | toolError (e : ToolError)
  | symbolCreationError (msg : String)
deriving DecidableEq

/-- Modelled from the spec: `MechaCodeSymbolThinking` (identifier.rs is not
among the sources) — the working memory for a candidate symbol, with the
constructor-argument order visible at locker.rs lines 103-111: name, steps,
is_new flag, file path, optional resolved snippet, sub-symbols, user
context. -/
structure MechaCodeSymbolThinking where
  symbol_name : String
  steps : List String
  is_new : Bool
  fs_file_path : String
  snippet : Option Snippet
  sub_symbols : List String
  user_context : String
deriving DecidableEq

/-- Modelled from the spec: `MechaCodeSymbolThinking::to_symbol_identifier`
— the routing identifier carrying the thinking's name and file path. -/
def MechaCodeSymbolThinking.to_symbol_identifier (m : MechaCodeSymbolThinking) :
    SymbolIdentifier :=
  { symbol_name := m.symbol_name, fs_file_path := some m.fs_file_path }

/-- Modelled from the spec: the `SymbolEvent` payload forwarded into an
actor's mailbox (events/types.rs is not among the sources). -/
inductive SymbolEvent : Type where
  | initialRequest (instruction : String)
  | edit (instruction : String)
  | askQuestion (question : String)
  | outline
deriving DecidableEq

/-- Modelled from the spec: `SymbolEventRequest` (types.rs is not among the
sources) — the addressed request: target identifier plus event payload. -/
structure SymbolEventRequest where
  symbol : SymbolIdentifier
  event : SymbolEvent
deriving DecidableEq

/-- Modelled from the spec: `SymbolEventRequest::remove_event` — strips the
addressing and yields the payload sent into the mailbox. -/
def SymbolEventRequest.remove_event (r : SymbolEventRequest) : SymbolEvent :=
  r.event

/-- The mutable state of `SymbolLocker`: the registry from identifier to
mailbox (mailboxes numbered in creation order), the next fresh mailbox
number, and which mailboxes have a spawned actor loop owning their receiver
(when `Symbol::new` fails the receiver is dropped instead, locker.rs line
163's question-mark return). -/
structure LockerState where
  symbols : List (SymbolIdentifier × Nat)
  next_mailbox : Nat
  live_mailboxes : List Nat
deriving DecidableEq

/-- The empty locker, as built by `SymbolLocker::new`. -/
def LockerState.initial : LockerState :=
  { symbols := [], next_mailbox := 0, live_mailboxes := [] }

/-- The environment of a `SymbolLocker`: the outcome of the capability calls
it makes — `ToolBox::find_snippet_for_symbol` and `Symbol::new` — plus the
session user context. -/
structure LockerEnv where
  find_snippet_for_symbol : String → String → Except SymbolError Snippet
  symbol_new : SymbolIdentifier → MechaCodeSymbolThinking → Except SymbolError Unit
  user_context : String

/-- Observable locker operations, in program order: registering a mailbox in
the registry, spawning an actor's message loop, and sending an event into a
mailbox. -/
inductive LockerOp : Type where
  | registryInsert (id : SymbolIdentifier) (mailbox : Nat)
  | spawnActorLoop (mailbox : Nat)
  | mailboxSend (mailbox : Nat) (event : SymbolEvent)
deriving DecidableEq

/-- How `process_request` left the caller's one-shot reply sender. -/
inductive ReplyDisposition : Type where
  /-- The (event, reply-sender) pair entered a mailbox whose actor loop runs. -/
  | forwardedToActor (mailbox : Nat)
  /-- The mailbox's receiver was dropped, so `send` failed and the pair —
  reply sender included — was dropped: the channel closes with no value. -/
  | droppedBySendFailure (mailbox : Nat)
  /-- The registry lookup failed; the reply sender was dropped at scope end. -/
  | droppedNoActor
  /-- The process aborted (todo! panic) before any send. -/
  | lostInPanic
deriving DecidableEq

/-- Outcome of one `process_request` call. -/
inductive ProcOutcome : Type where
  | completed (reply : ReplyDisposition)
  | panicked (msg : String)
deriving DecidableEq

/-- Models `SymbolLocker::create_symbol_agent` (locker.rs lines 136-172):
create the mailbox channel, insert the sender into the registry under the
lock, construct the `Symbol` (fallible, question-mark return on error), and
only then spawn the actor's message loop. -/
def create_symbol_agent (env : LockerEnv) (st : LockerState)
    (request : MechaCodeSymbolThinking) :
    LockerState × List LockerOp × Except SymbolError Unit :=
  let symbol_identifier := request.to_symbol_identifier
  let mailbox := st.next_mailbox
  let st1 : LockerState :=
    { st with next_mailbox := st.next_mailbox + 1,
              symbols := (symbol_identifier, mailbox) :: st.symbols }
  match env.symbol_new symbol_identifier request with
  | Except.error e =>
      (st1, [LockerOp.registryInsert symbol_identifier mailbox], Except.error e)
  | Except.ok _ =>
      ({ st1 with live_mailboxes := mailbox :: st1.live_mailboxes },
       [LockerOp.registryInsert symbol_identifier mailbox,
        LockerOp.spawnActorLoop mailbox],
       Except.ok ())

/-- Models locker.rs lines 128-133: look the identifier up and, when a
mailbox is registered, send `(request.remove_event(), sender)` into it with
`let _ = ...`; a send onto a mailbox whose receiver is gone fails silently
and drops the reply sender; a missed lookup drops it too. -/
def forward_request (st : LockerState) (ops : List LockerOp)
    (request : SymbolEventRequest) : LockerState × List LockerOp × ProcOutcome :=
  match assocLookup st.symbols request.symbol with
  | some mailbox =>
      if st.live_mailboxes.contains mailbox then
        (st, ops ++ [LockerOp.mailboxSend mailbox request.remove_event],
         ProcOutcome.completed (ReplyDisposition.forwardedToActor mailbox))
      else
        (st, ops, ProcOutcome.completed (ReplyDisposition.droppedBySendFailure mailbox))
  | none => (st, ops, ProcOutcome.completed ReplyDisposition.droppedNoActor)

/-- Models `SymbolLocker::process_request` (locker.rs lines 74-134),
statement by statement. Lines 84-92: `does_exist` starts false, the branch
where the registry misses leaves it unchanged, and the branch where the
registry already holds the identifier assigns `false` again — so it is false
on every path. Lines 94-126: the (always-taken) creation path resolves the
snippet, builds the `MechaCodeSymbolThinking` and calls
`create_symbol_agent` ignoring its result; the two failure arms are `todo!`
panics. Lines 128-133: forward into the registered mailbox. -/
def process_request (env : LockerEnv) (st : LockerState)
    (request : SymbolEventRequest) : LockerState × List LockerOp × ProcOutcome :=
  let symbol_identifier := request.symbol
  let does_exist := false
  let does_exist :=
    if (assocLookup st.symbols symbol_identifier).isNone then does_exist else false
  if !does_exist then
    match symbol_identifier.fs_file_path with
    | some fs_file_path =>
      match env.find_snippet_for_symbol fs_file_path symbol_identifier.symbol_name with
      | Except.ok snippet =>
          let mecha : MechaCodeSymbolThinking :=
            { symbol_name := symbol_identifier.symbol_name, steps := [],
              is_new := false, fs_file_path := fs_file_path,
              snippet := some snippet, sub_symbols := [],
              user_context := env.user_context }
          let created := create_symbol_agent env st mecha
          forward_request created.1 created.2.1 request
      | Except.error _ =>
          (st, [],
           ProcOutcome.panicked
             "no snippet found for the snippet, we are screwed over here, look at the comment above")
    | none =>
        (st, [],
         ProcOutcome.panicked
           "we are mostly fucked if this is the case, we have to figure out how to handle the request coming in but not having the file path later on")
  else
    forward_request st [] request

/-- Runs a sequence of requests through one locker, threading the state and
concatenating the operation traces. -/
def process_requests (env : LockerEnv) :
    LockerState → List SymbolEventRequest → LockerState × List LockerOp
  | st, [] => (st, [])
  | st, r :: rs =>
    let step := process_request env st r
    let rest := process_requests env step.1 rs
    (rest.1, step.2.1 ++ rest.2)

/-- Recognizes actor-loop spawns in a trace. -/
def isSpawnOp : LockerOp → Bool
  | LockerOp.spawnActorLoop _ => true
  | _ => false

/-- Recognizes registry insertions in a trace. -/
def isRegistryInsertOp : LockerOp → Bool
  | LockerOp.registryInsert _ _ => true
  | _ => false

/-- Number of actor creations (spawned message loops) in a trace. -/
def countCreations (ops : List LockerOp) : Nat :=
  (ops.filter isSpawnOp).length

/-- Number of registry insertions in a trace. -/
def countRegistryInserts (ops : List LockerOp) : Nat :=
  (ops.filter isRegistryInsertOp).length

/-- Modelled from the spec: a source range (start/end line+column), as
carried by outline nodes and snippets. -/
structure Range where
  start_line : Nat
  start_col : Nat
  end_line : Nat
  end_col : Nat
deriving DecidableEq

/-- Result of `find_symbol_to_edit`: the currently resolved symbol, of which
`check_code_correctness` only reads the range. -/
structure EditableSymbol where
  range : Range
deriving DecidableEq

/-- Modelled from the spec: one LSP diagnostic over the edited range. -/
structure Diagnostic where
  message : String
deriving DecidableEq

/-- Modelled from the spec: one quick-fix option listed by the editor. -/
structure QuickFixOption where
  label : String
deriving DecidableEq

/-- Result of `code_correctness_action_selection`: the LLM's thinking plus
the chosen index (an i64 in the source, so an Int here). -/
structure CodeCorrectnessAction where
  thinking : String
  index : Int
deriving DecidableEq

/-- The outcomes of the capability calls one iteration of
`check_code_correctness` can make, in program order (tool_box.rs lines
1360-1448). Each field is the result the surrounding environment would
deliver for that call in this iteration. -/
structure CorrectnessIterEnv where
  find_symbol_first : Except SymbolError EditableSymbol
  file_open_first : Except SymbolError String
  apply_edits_first : Except SymbolError Unit
  find_symbol_second : Except SymbolError EditableSymbol
  file_open_second : Except SymbolError String
  lsp_diagnostics : Except SymbolError (List Diagnostic)
  quick_fix_actions : Except SymbolError (List QuickFixOption)
  action_selection : Except SymbolError CodeCorrectnessAction
  fixed_code : Except SymbolError String
  apply_fixed_edits : Except SymbolError Unit
  quick_action_invocation : Except SymbolError LSPQuickFixInvocationResponse

/-- The capability calls an iteration issues, in order. -/
inductive CorrectnessCall : Type where
  | findSymbolToEdit
  | fileOpen
  | applyEditsToEditor
  | getLspDiagnostics
  | getQuickFixActions
  | codeCorrectnessActionSelection
  | codeCorrectnessWithEdits
  | invokeQuickAction (index : Int)
deriving DecidableEq

/-- Whether the loop body ended by breaking (empty diagnostics) or by
falling through to the next iteration. -/
inductive IterOutcome : Type where
  | breakLoop
  | loopAgain
deriving DecidableEq

/-- Models one body execution of the `loop` in
`ToolBox::check_code_correctness` (tool_box.rs lines 1360-1448): resolve the
symbol, open the file, re-apply the edited code, re-resolve, re-open, query
diagnostics over the edited range; break when they are empty; otherwise list
quick fixes, ask the LLM to select an action, and dispatch on the selected
index — at or beyond the quick-fix list length a fresh corrective edit is
generated and applied, otherwise the quick fix at that index is invoked
(its failure is noted and ignored). Every question-mark propagation is an
error result carrying the calls made so far. -/
def check_iteration (ie : CorrectnessIterEnv) :
    List CorrectnessCall × Except SymbolError IterOutcome :=
  match ie.find_symbol_first with
  | Except.error e => ([CorrectnessCall.findSymbolToEdit], Except.error e)
  | Except.ok _symbol_to_edit =>
  match ie.file_open_first with
  | Except.error e =>
      ([CorrectnessCall.findSymbolToEdit, CorrectnessCall.fileOpen], Except.error e)
  | Except.ok _ =>
  match ie.apply_edits_first with
  | Except.error e =>
      ([CorrectnessCall.findSymbolToEdit, CorrectnessCall.fileOpen,
        CorrectnessCall.applyEditsToEditor], Except.error e)
  | Except.ok _ =>
  match ie.find_symbol_second with
  | Except.error e =>
      ([CorrectnessCall.findSymbolToEdit, CorrectnessCall.fileOpen,
        CorrectnessCall.applyEditsToEditor, CorrectnessCall.findSymbolToEdit],
       Except.error e)
  | Except.ok _ =>
  match ie.file_open_second with
  | Except.error e =>
      ([CorrectnessCall.findSymbolToEdit, CorrectnessCall.fileOpen,
        CorrectnessCall.applyEditsToEditor, CorrectnessCall.findSymbolToEdit,
        CorrectnessCall.fileOpen], Except.error e)
  | Except.ok _fs_file_content =>
  match ie.lsp_diagnostics with
  | Except.error e =>
      ([CorrectnessCall.findSymbolToEdit, CorrectnessCall.fileOpen,
        CorrectnessCall.applyEditsToEditor, CorrectnessCall.findSymbolToEdit,
        CorrectnessCall.fileOpen, CorrectnessCall.getLspDiagnostics], Except.error e)
  | Except.ok lsp_diagnostics =>
  if lsp_diagnostics.isEmpty then
    ([CorrectnessCall.findSymbolToEdit, CorrectnessCall.fileOpen,
      CorrectnessCall.applyEditsToEditor, CorrectnessCall.findSymbolToEdit,
      CorrectnessCall.fileOpen, CorrectnessCall.getLspDiagnostics],
     Except.ok IterOutcome.breakLoop)
  else
  match ie.quick_fix_actions with
  | Except.error e =>
      ([CorrectnessCall.findSymbolToEdit, CorrectnessCall.fileOpen,
        CorrectnessCall.applyEditsToEditor, CorrectnessCall.findSymbolToEdit,
        CorrectnessCall.fileOpen, CorrectnessCall.getLspDiagnostics,
        CorrectnessCall.getQuickFixActions], Except.error e)
  | Except.ok quick_fix_actions =>
  match ie.action_selection with
  | Except.error e =>
      ([CorrectnessCall.findSymbolToEdit, CorrectnessCall.fileOpen,
        CorrectnessCall.applyEditsToEditor, CorrectnessCall.findSymbolToEdit,
        CorrectnessCall.fileOpen, CorrectnessCall.getLspDiagnostics,
        CorrectnessCall.getQuickFixActions,
        CorrectnessCall.codeCorrectnessActionSelection], Except.error e)
  | Except.ok selected_action =>
  let selected_action_index := selected_action.index
  if selected_action_index ≥ (quick_fix_actions.length : Int) then
    match ie.fixed_code with
    | Except.error e =>
        ([CorrectnessCall.findSymbolToEdit, CorrectnessCall.fileOpen,
          CorrectnessCall.applyEditsToEditor, CorrectnessCall.findSymbolToEdit,
          CorrectnessCall.fileOpen, CorrectnessCall.getLspDiagnostics,
          CorrectnessCall.getQuickFixActions,
          CorrectnessCall.codeCorrectnessActionSelection,
          CorrectnessCall.codeCorrectnessWithEdits], Except.error e)
    | Except.ok _fixed_code =>
      match ie.apply_fixed_edits with
      | Except.error e =>
          ([CorrectnessCall.findSymbolToEdit, CorrectnessCall.fileOpen,
            CorrectnessCall.applyEditsToEditor, CorrectnessCall.findSymbolToEdit,
            CorrectnessCall.fileOpen, CorrectnessCall.getLspDiagnostics,
            CorrectnessCall.getQuickFixActions,
            CorrectnessCall.codeCorrectnessActionSelection,
            CorrectnessCall.codeCorrectnessWithEdits,
            CorrectnessCall.applyEditsToEditor], Except.error e)
      | Except.ok _ =>
          ([CorrectnessCall.findSymbolToEdit, CorrectnessCall.fileOpen,
            CorrectnessCall.applyEditsToEditor, CorrectnessCall.findSymbolToEdit,
            CorrectnessCall.fileOpen, CorrectnessCall.getLspDiagnostics,
            CorrectnessCall.getQuickFixActions,
            CorrectnessCall.codeCorrectnessActionSelection,
            CorrectnessCall.codeCorrectnessWithEdits,
            CorrectnessCall.applyEditsToEditor], Except.ok IterOutcome.loopAgain)
  else
    match ie.quick_action_invocation with
    | Except.error e =>
        ([CorrectnessCall.findSymbolToEdit, CorrectnessCall.fileOpen,
          CorrectnessCall.applyEditsToEditor, CorrectnessCall.findSymbolToEdit,
          CorrectnessCall.fileOpen, CorrectnessCall.getLspDiagnostics,
          CorrectnessCall.getQuickFixActions,
          CorrectnessCall.codeCorrectnessActionSelection,
          CorrectnessCall.invokeQuickAction selected_action_index], Except.error e)
    | Except.ok _response =>
        ([CorrectnessCall.findSymbolToEdit, CorrectnessCall.fileOpen,
          CorrectnessCall.applyEditsToEditor, CorrectnessCall.findSymbolToEdit,
          CorrectnessCall.fileOpen, CorrectnessCall.getLspDiagnostics,
          CorrectnessCall.getQuickFixActions,
          CorrectnessCall.codeCorrectnessActionSelection,
          CorrectnessCall.invokeQuickAction selected_action_index],
         Except.ok IterOutcome.loopAgain)

/-- Models the `loop` of `check_code_correctness` with its try counter:
`remaining` stands for `max_tries - tries` (the loop checks
`tries >= max_tries`, breaks, and otherwise increments `tries` and runs the
body). Returns the overall result, the number of body executions, and the
concatenated call trace; `tries` indexes the per-iteration environment. -/
def check_code_correctness_go (env : Nat → CorrectnessIterEnv) :
    Nat → Nat → Except SymbolError Unit × Nat × List CorrectnessCall
  | _, 0 => (Except.ok (), 0, [])
  | tries, remaining + 1 =>
    let step := check_iteration (env tries)
    match step.2 with
    | Except.error e => (Except.error e, 1, step.1)
    | Except.ok IterOutcome.breakLoop => (Except.ok (), 1, step.1)
    | Except.ok IterOutcome.loopAgain =>
        let rest := check_code_correctness_go env (tries + 1) remaining
        (rest.1, 1 + rest.2.1, step.1 ++ rest.2.2)

/-- Models `ToolBox::check_code_correctness` (tool_box.rs lines 1332-1453):
`tries` starts at 0 and `max_tries` is 5; exhausting the cap breaks out of
the loop and the function returns `Ok(())`. -/
def check_code_correctness (env : Nat → CorrectnessIterEnv) :
    Except SymbolError Unit × Nat × List CorrectnessCall :=
  let max_tries := 5
  check_code_correctness_go env 0 max_tries

/-!
Concrete fixtures used to evaluate the embedded code at specific inputs.
-/

/-- A registered implementation: a code-editing tool answering every input. -/
def sampleTool : Tool :=
  { invoke := fun _ => Except.ok (ToolOutput.codeEdited "edited"),
    tool_description := "sample code editing tool",
    tool_input_format := some "payload" }

/-- A broker whose only registered tag is `codeEditing`. -/
def sampleBroker : ToolBroker :=
  { tools := [(ToolType.codeEditing, sampleTool)] }

/-- An input whose tag is registered in `sampleBroker`. -/
def sampleInput : ToolInput :=
  ToolInput.codeEditing "fix the bug"

/-- An input whose tag is not registered in `sampleBroker`. -/
def missingInput : ToolInput :=
  ToolInput.openFileRequest "a.rs"

/-- A tool listing entry named dup, as two different servers would offer. -/
def dupToolInfo : ToolInfo :=
  { name := "dup", description := "duplicated capability",
    input_schema := JsonV.obj [("properties", JsonV.obj [])] }

/-- An MCP client offering the tool named dup. -/
def dupClient : MCPClient :=
  { list_tools_result := Except.ok [dupToolInfo],
    call_tool := fun _ _ => Except.error "offline" }

/-- An environment in which snippet resolution and actor construction both
succeed. -/
def goodEnv : LockerEnv :=
  { find_snippet_for_symbol := fun fs_file_path symbol_name =>
      Except.ok { symbol_name := symbol_name, fs_file_path := fs_file_path,
                  content := "fn parseConfig()" },
    symbol_new := fun _ _ => Except.ok (),
    user_context := "ctx" }

/-- An environment in which snippet resolution fails with SnippetNotFound. -/
def missingSnippetEnv : LockerEnv :=
  { find_snippet_for_symbol := fun _ _ => Except.error SymbolError.snippetNotFound,
    symbol_new := fun _ _ => Except.ok (),
    user_context := "ctx" }

/-- An environment in which snippet resolution succeeds but `Symbol::new`
fails. -/
def failingSymbolNewEnv : LockerEnv :=
  { find_snippet_for_symbol := fun fs_file_path symbol_name =>
      Except.ok { symbol_name := symbol_name, fs_file_path := fs_file_path,
                  content := "fn parseConfig()" },
    symbol_new := fun _ _ =>
      Except.error (SymbolError.symbolCreationError "llm unavailable"),
    user_context := "ctx" }

/-- The identifier of the spec's running example: parseConfig in a.rs. -/
def parseConfigId : SymbolIdentifier :=
  { symbol_name := "parseConfig", fs_file_path := some "a.rs" }

/-- An edit request addressed to `parseConfigId`. -/
def parseConfigRequest : SymbolEventRequest :=
  { symbol := parseConfigId, event := SymbolEvent.edit "rename the flag" }

/-- A request whose identifier carries no file path. -/
def noPathRequest : SymbolEventRequest :=
  { symbol := { symbol_name := "mystery", fs_file_path := none },
    event := SymbolEvent.outline }

/-- A candidate-symbol working memory for parseConfig. -/
def sampleThinking : MechaCodeSymbolThinking :=
  { symbol_name := "parseConfig", steps := [], is_new := false,
    fs_file_path := "a.rs", snippet := none, sub_symbols := [],
    user_context := "ctx" }

/-- The resolved range of the edited symbol in the fixtures. -/
def sampleRange : Range :=
  { start_line := 1, start_col := 0, end_line := 3, end_col := 1 }

/-- A per-iteration environment in which every capability call succeeds and
the diagnostics never clear; the LLM selects index 0 against an empty
quick-fix list, so every iteration takes the fresh-edit path. -/
def constCorrEnv : CorrectnessIterEnv :=
  { find_symbol_first := Except.ok { range := sampleRange },
    file_open_first := Except.ok "fn parseConfig()",
    apply_edits_first := Except.ok (),
    find_symbol_second := Except.ok { range := sampleRange },
    file_open_second := Except.ok "fn parseConfig()",
    lsp_diagnostics := Except.ok [{ message := "mismatched types" }],
    quick_fix_actions := Except.ok [],
    action_selection := Except.ok { thinking := "rewrite the body", index := 0 },
    fixed_code := Except.ok "fn parseConfig() -> Config",
    apply_fixed_edits := Except.ok (),
    quick_action_invocation := Except.ok { request_id := "r1", invocation_success := true } }

/-- A per-iteration environment in which the editor offers two quick fixes
and the LLM selects index 1, so the quick fix at index 1 is invoked. -/
def quickFixIterEnv : CorrectnessIterEnv :=
  { constCorrEnv with
    quick_fix_actions := Except.ok [{ label := "import Config" },
                                    { label := "add return type" }],
    action_selection := Except.ok { thinking := "take the second fix", index := 1 } }

/-- Whether an Except carries a success value (as `Result::is_ok`). -/
def exceptIsOk {ε α : Type} : Except ε α → Bool
  | Except.ok _ => true
  | Except.error _ => false

/-- All capability calls of one `check_code_correctness` iteration succeed. -/
def iterCallsSucceed (ie : CorrectnessIterEnv) : Prop :=
  (∃ a, ie.find_symbol_first = Except.ok a) ∧
  (∃ a, ie.file_open_first = Except.ok a) ∧
  (∃ a, ie.apply_edits_first = Except.ok a) ∧
  (∃ a, ie.find_symbol_second = Except.ok a) ∧
  (∃ a, ie.file_open_second = Except.ok a) ∧
  (∃ a, ie.lsp_diagnostics = Except.ok a) ∧
  (∃ a, ie.quick_fix_actions = Except.ok a) ∧
  (∃ a, ie.action_selection = Except.ok a) ∧
  (∃ a, ie.fixed_code = Except.ok a) ∧
  (∃ a, ie.apply_fixed_edits = Except.ok a) ∧
  (∃ a, ie.quick_action_invocation = Except.ok a)

/-!
Theorems.
-/

/-- C1: the claim says a second request for an already-registered
SymbolIdentifier is forwarded without a second creation; on the code,
`does_exist` (locker.rs lines 84-92) is false on every path — the
exists-branch assigns `false` again — so two sequential requests for the
same identifier spawn two actors and insert two registry entries, even
though the identifier is already registered after the first request. -/
theorem process_request_second_request_recreates_actor :
    countCreations (process_requests goodEnv LockerState.initial
        [parseConfigRequest, parseConfigRequest]).2 = 2 ∧
    countRegistryInserts (process_requests goodEnv LockerState.initial
        [parseConfigRequest, parseConfigRequest]).2 = 2 ∧
    (assocLookup (process_request goodEnv LockerState.initial
        parseConfigRequest).1.symbols parseConfigId).isSome = true := by
  refine ⟨rfl, rfl, rfl⟩

/-- C2: the claim says a failed snippet resolution is returned as a
resolution error on the caller's reply channel without crashing; on the
code, the `Err` arm of `find_snippet_for_symbol` is `todo!` (locker.rs line
118), so the process panics, no actor is created, and no reply is ever
sent. -/
theorem process_request_snippet_failure_panics :
    process_request missingSnippetEnv LockerState.initial parseConfigRequest =
      (LockerState.initial, [],
       ProcOutcome.panicked
         "no snippet found for the snippet, we are screwed over here, look at the comment above") := by
  rfl

/-- C3: the claim says a request whose identifier has no file path (and no
registered actor) yields an `UnresolvableSymbol` error without aborting; on
the code, that branch is `todo!` (locker.rs line 124), so the process
panics and no actor is created. -/
theorem process_request_no_file_path_panics :
    process_request goodEnv LockerState.initial noPathRequest =
      (LockerState.initial, [],
       ProcOutcome.panicked
         "we are mostly fucked if this is the case, we have to figure out how to handle the request coming in but not having the file path later on") := by
  rfl

/-- C4: the claim says the caller's reply channel is always resolved with an
explicit value; on the code, when `Symbol::new` fails the error is ignored
(`let _ = self.create_symbol_agent(...)`, locker.rs line 114), the stale
mailbox sender registered before the failure is looked up, the send onto the
dead mailbox fails silently (`let _ = symbol.send(...)`, line 131), and the
reply sender is dropped: the channel closes with no explicit error value. -/
theorem process_request_reply_dropped_on_creation_failure :
    (process_request failingSymbolNewEnv LockerState.initial
        parseConfigRequest).2.2 =
      ProcOutcome.completed (ReplyDisposition.droppedBySendFailure 0) := by
  rfl

/-- C5: `ToolBroker::invoke` on an input whose tag is registered returns
exactly that implementation's result for the input; on an unregistered tag
it returns `ToolError::MissingTool` without calling any implementation. -/
theorem toolBroker_invoke_dispatch (b : ToolBroker) (input : ToolInput) :
    (∀ tool, assocLookup b.tools input.tool_type = some tool →
        b.invoke input = tool.invoke input) ∧
    (assocLookup b.tools input.tool_type = none →
        b.invoke input = Except.error ToolError.missingTool) := by
  constructor
  · intro tool h
    simp [ToolBroker.invoke, h]
  · intro h
    simp [ToolBroker.invoke, h]

/-- Witness for C5: in `sampleBroker`, the registered `codeEditing` input is
answered by `sampleTool` and the unregistered `openFile` input gets
`MissingTool`. -/
theorem toolBroker_invoke_dispatch_witness :
    ToolBroker.invoke sampleBroker sampleInput = sampleTool.invoke sampleInput ∧
    ToolBroker.invoke sampleBroker missingInput = Except.error ToolError.missingTool :=
  ⟨(toolBroker_invoke_dispatch sampleBroker sampleInput).1 sampleTool rfl,
   (toolBroker_invoke_dispatch sampleBroker missingInput).2 rfl⟩

/-- C9: in `create_symbol_agent`, for every successful creation the mailbox
sender is inserted into the registry strictly before the actor's message
loop is spawned: the operation trace is exactly the registry insertion
followed by the spawn. -/
theorem create_symbol_agent_registers_before_spawn
    (env : LockerEnv) (st : LockerState) (request : MechaCodeSymbolThinking)
    (h : (create_symbol_agent env st request).2.2 = Except.ok ()) :
    (create_symbol_agent env st request).2.1 =
      [LockerOp.registryInsert request.to_symbol_identifier st.next_mailbox,
       LockerOp.spawnActorLoop st.next_mailbox] := by
  cases hs : env.symbol_new request.to_symbol_identifier request with
  | error e => simp [create_symbol_agent, hs] at h
  | ok u => simp [create_symbol_agent, hs]

/-- Witness for C9: creating the parseConfig actor in the fresh locker
registers mailbox 0 before spawning its loop. -/
theorem create_symbol_agent_registers_before_spawn_witness :
    (create_symbol_agent goodEnv LockerState.initial sampleThinking).2.1 =
      [LockerOp.registryInsert sampleThinking.to_symbol_identifier 0,
       LockerOp.spawnActorLoop 0] :=
  create_symbol_agent_registers_before_spawn goodEnv LockerState.initial
    sampleThinking rfl

/-- C10: `DynamicMCPTool::tool_input_format` (via `generate_schema_usage`)
panics — modelled as `none` — exactly when the provider-supplied schema has
no "properties" key whose value is a JSON object, so synthesizing usage
documentation is not total over arbitrary schemas. -/
theorem dynamicMCPTool_tool_input_format_panics (t : DynamicMCPTool) :
    t.tool_input_format = none ↔
      (t.schema.get "properties").bind JsonV.as_object = none := by
  unfold DynamicMCPTool.tool_input_format generate_schema_usage
  cases h : (t.schema.get "properties").bind JsonV.as_object <;> simp [h]

/-- Consing a binding shadows or defers: lookup on the extended map. -/
theorem assocLookup_cons {α β : Type} [DecidableEq α] (a : α) (b : β)
    (m : List (α × β)) (k : α) :
    assocLookup ((a, b) :: m) k = if a = k then some b else assocLookup m k := rfl

/-- Registering a server's tools never removes a known name. -/
theorem registerServerTools_preserves_known (sn : String) (c : MCPClient) :
    ∀ (ts : List ToolInfo) (known : List (String × String)) (b : ToolBroker)
      (kb : List (String × String) × ToolBroker) (n : String),
      registerServerTools sn c ts known b = Except.ok kb →
      (assocLookup known n).isSome = true → (assocLookup kb.1 n).isSome = true := by
  intro ts
  induction ts with
  | nil =>
    intro known b kb n h hk
    simp only [registerServerTools, Except.ok.injEq] at h
    rw [← h]
    exact hk
  | cons ti rest ih =>
    intro known b kb n h hk
    cases hl : assocLookup known ti.name with
    | some conflict =>
      simp only [registerServerTools, hl] at h
      exact Except.noConfusion h
    | none =>
      simp only [registerServerTools, hl] at h
      refine ih _ _ _ n h ?_
      rw [assocLookup_cons]
      by_cases he : ti.name = n
      · simp [he]
      · simpa [he] using hk

/-- After successfully registering a server's tools, every listed tool name
is known. -/
theorem registerServerTools_adds_names (sn : String) (c : MCPClient) :
    ∀ (ts : List ToolInfo) (known : List (String × String)) (b : ToolBroker)
      (kb : List (String × String) × ToolBroker) (n : String),
      registerServerTools sn c ts known b = Except.ok kb →
      n ∈ ts.map ToolInfo.name → (assocLookup kb.1 n).isSome = true := by
  intro ts
  induction ts with
  | nil => intro known b kb n h hn; simp at hn
  | cons ti rest ih =>
    intro known b kb n h hn
    cases hl : assocLookup known ti.name with
    | some conflict =>
      simp only [registerServerTools, hl] at h
      exact Except.noConfusion h
    | none =>
      simp only [registerServerTools, hl] at h
      rw [List.map_cons] at hn
      rcases List.mem_cons.mp hn with he | hm
      · refine registerServerTools_preserves_known sn c _ _ _ _ n h ?_
        rw [assocLookup_cons]
        simp [he]
      · exact ih _ _ _ n h hm

/-- Registering a server whose list reuses an already-known name fails. -/
theorem registerServerTools_conflict (sn : String) (c : MCPClient) :
    ∀ (ts : List ToolInfo) (known : List (String × String)) (b : ToolBroker)
      (n : String),
      (assocLookup known n).isSome = true → n ∈ ts.map ToolInfo.name →
      ∃ e, registerServerTools sn c ts known b = Except.error e := by
  intro ts
  induction ts with
  | nil => intro known b n hk hn; simp at hn
  | cons ti rest ih =>
    intro known b n hk hn
    cases hl : assocLookup known ti.name with
    | some conflict =>
      exact ⟨_, by simp only [registerServerTools, hl]; rfl⟩
    | none =>
      have hne : ti.name ≠ n := by
        intro he
        rw [he] at hl
        rw [hl] at hk
        simp at hk
      rw [List.map_cons] at hn
      rcases List.mem_cons.mp hn with he | hm
      · exact absurd he.symm hne
      · have hk2 : (assocLookup ((ti.name, sn) :: known) n).isSome = true := by
          rw [assocLookup_cons]
          simpa [hne] using hk
        rcases ih ((ti.name, sn) :: known) _ n hk2 hm with ⟨e, herr⟩
        exact ⟨e, by simp only [registerServerTools, hl]; exact herr⟩

/-- If a name is already known and some later server lists it again, the
whole registration run fails. -/
theorem withMCPGo_conflict :
    ∀ (clients : List (String × MCPClient)) (known : List (String × String))
      (b : ToolBroker) (n : String),
      (assocLookup known n).isSome = true →
      (∃ sc ts, sc ∈ clients ∧ sc.2.list_tools_result = Except.ok ts ∧
        n ∈ ts.map ToolInfo.name) →
      ∃ e, withMCPGo clients known b = Except.error e := by
  intro clients
  induction clients with
  | nil =>
    intro known b n hk hmem
    rcases hmem with ⟨sc, ts, hmem, _, _⟩
    simp at hmem
  | cons hd rest ih =>
    intro known b n hk hmem
    obtain ⟨server_name, client⟩ := hd
    cases hlt : client.list_tools_result with
    | error e => exact ⟨_, by simp only [withMCPGo, hlt]; rfl⟩
    | ok tools =>
      rcases hmem with ⟨sc, ts, hmem, hok, hns⟩
      rcases List.mem_cons.mp hmem with he | hm
      · have hok2 : client.list_tools_result = Except.ok ts := by
          rw [he] at hok
          exact hok
        rw [hlt] at hok2
        injection hok2 with hts
        subst hts
        rcases registerServerTools_conflict server_name client tools known b n hk hns
          with ⟨e, herr⟩
        exact ⟨e, by simp only [withMCPGo, hlt, herr]⟩
      · cases hreg : registerServerTools server_name client tools known b with
        | error e => exact ⟨e, by simp only [withMCPGo, hlt, hreg]⟩
        | ok kb =>
          rcases ih kb.1 kb.2 n
            (registerServerTools_preserves_known server_name client _ _ _ _ n hreg hk)
            ⟨sc, ts, hm, hok, hns⟩ with ⟨e, herr⟩
          exact ⟨e, by simp only [withMCPGo, hlt, hreg]; exact herr⟩

/-- After any prefix of servers, a server listing a name that a later server
lists again makes the whole run fail. -/
theorem withMCPGo_dup (n : String) :
    ∀ (pre : List (String × MCPClient)) (s1 : String) (c1 : MCPClient)
      (rest : List (String × MCPClient)) (ts1 : List ToolInfo)
      (known : List (String × String)) (b : ToolBroker),
      c1.list_tools_result = Except.ok ts1 → n ∈ ts1.map ToolInfo.name →
      (∃ sc ts, sc ∈ rest ∧ sc.2.list_tools_result = Except.ok ts ∧
        n ∈ ts.map ToolInfo.name) →
      ∃ e, withMCPGo (pre ++ (s1, c1) :: rest) known b = Except.error e := by
  intro pre
  induction pre with
  | nil =>
    intro s1 c1 rest ts1 known b h1 hn1 hmem
    rw [List.nil_append]
    cases hreg : registerServerTools s1 c1 ts1 known b with
    | error e => exact ⟨e, by simp only [withMCPGo, h1, hreg]⟩
    | ok kb =>
      rcases withMCPGo_conflict rest kb.1 kb.2 n
        (registerServerTools_adds_names s1 c1 _ _ _ _ n hreg hn1) hmem
        with ⟨e, herr⟩
      exact ⟨e, by simp only [withMCPGo, h1, hreg]; exact herr⟩
  | cons hd pre ih =>
    intro s1 c1 rest ts1 known b h1 hn1 hmem
    obtain ⟨s0, c0⟩ := hd
    rw [List.cons_append]
    cases hlt : c0.list_tools_result with
    | error e => exact ⟨_, by simp only [withMCPGo, hlt]; rfl⟩
    | ok tools =>
      cases hreg : registerServerTools s0 c0 tools known b with
      | error e => exact ⟨e, by simp only [withMCPGo, hlt, hreg]⟩
      | ok kb =>
        rcases ih s1 c1 rest ts1 kb.1 kb.2 h1 hn1 hmem with ⟨e, herr⟩
        exact ⟨e, by simp only [withMCPGo, hlt, hreg]; exact herr⟩

/-- C6: if dynamic capability discovery meets two externally provided
capabilities with the same synthesized tool name from different providers,
`ToolBroker::with_mcp` fails broker construction with an error rather than
silently overriding, and no broker value — hence no tool from either
conflicting source — results. -/
theorem toolBroker_with_mcp_duplicate_fails
    (b : ToolBroker) (pre mid post : List (String × MCPClient))
    (s1 s2 n : String) (c1 c2 : MCPClient) (ts1 ts2 : List ToolInfo)
    (h1 : c1.list_tools_result = Except.ok ts1)
    (h2 : c2.list_tools_result = Except.ok ts2)
    (hn1 : n ∈ ts1.map ToolInfo.name)
    (hn2 : n ∈ ts2.map ToolInfo.name)
    (_hs : s1 ≠ s2) :
    (∃ e, ToolBroker.with_mcp b (pre ++ (s1, c1) :: (mid ++ (s2, c2) :: post))
        = Except.error e) ∧
    ∀ b2, ToolBroker.with_mcp b (pre ++ (s1, c1) :: (mid ++ (s2, c2) :: post))
        ≠ Except.ok b2 := by
  have hne : (pre ++ (s1, c1) :: (mid ++ (s2, c2) :: post)).isEmpty = false := by
    cases pre <;> rfl
  have hgo : ∃ e, withMCPGo (pre ++ (s1, c1) :: (mid ++ (s2, c2) :: post)) [] b
      = Except.error e := by
    refine withMCPGo_dup n pre s1 c1 (mid ++ (s2, c2) :: post) ts1 [] b h1 hn1 ?_
    exact ⟨(s2, c2), ts2, by simp, h2, hn2⟩
  rcases hgo with ⟨e, he⟩
  have hw : ToolBroker.with_mcp b (pre ++ (s1, c1) :: (mid ++ (s2, c2) :: post))
      = Except.error e := by
    rw [ToolBroker.with_mcp, hne]
    exact he
  rw [hw]
  exact ⟨⟨e, rfl⟩, fun b2 hb => by cases hb⟩

/-- Witness for C6: servers srvA and srvB both offering a tool named dup
make `with_mcp` fail; no broker is produced. -/
theorem toolBroker_with_mcp_duplicate_fails_witness :
    exceptIsOk (ToolBroker.with_mcp { tools := [] }
      ([] ++ ("srvA", dupClient) :: ([] ++ ("srvB", dupClient) :: []))) = false := by
  obtain ⟨⟨e, he⟩, -⟩ :=
    toolBroker_with_mcp_duplicate_fails { tools := [] } [] [] []
      "srvA" "srvB" "dup" dupClient dupClient [dupToolInfo] [dupToolInfo]
      rfl rfl (by simp [dupToolInfo]) (by simp [dupToolInfo]) (by decide)
  rw [he]
  rfl

/-- When every capability call succeeds and the diagnostics are non-empty,
the loop body falls through to the next iteration. -/
theorem check_iteration_loopAgain (ie : CorrectnessIterEnv)
    (hok : iterCallsSucceed ie)
    (hne : ∀ d, ie.lsp_diagnostics = Except.ok d → d ≠ []) :
    (check_iteration ie).2 = Except.ok IterOutcome.loopAgain := by
  obtain ⟨⟨s1, e1⟩, ⟨f1, e2⟩, ⟨u1, e3⟩, ⟨s2, e4⟩, ⟨f2, e5⟩, ⟨d, e6⟩, ⟨qf, e7⟩,
    ⟨sel, e8⟩, ⟨fc, e9⟩, ⟨u2, e10⟩, ⟨qr, e11⟩⟩ := hok
  have hd : d.isEmpty = false := by
    rcases d with _ | ⟨x, d⟩
    · exact absurd rfl (hne [] e6)
    · rfl
  simp only [check_iteration, e1, e2, e3, e4, e5, e6, e7, e8, e9, e10, e11, hd,
    Bool.false_eq_true, if_false]
  split <;> rfl

/-- If every iteration falls through, the counter-bounded loop runs for the
whole budget and returns success. -/
theorem check_code_correctness_go_all_loopAgain (env : Nat → CorrectnessIterEnv)
    (h : ∀ k, (check_iteration (env k)).2 = Except.ok IterOutcome.loopAgain) :
    ∀ (remaining tries : Nat),
      (check_code_correctness_go env tries remaining).1 = Except.ok () ∧
      (check_code_correctness_go env tries remaining).2.1 = remaining := by
  intro remaining
  induction remaining with
  | zero => intro tries; exact ⟨rfl, rfl⟩
  | succ m ih =>
    intro tries
    simp only [check_code_correctness_go, h tries]
    exact ⟨(ih (tries + 1)).1, by rw [(ih (tries + 1)).2]; exact Nat.add_comm 1 m⟩

/-- C7: when the diagnostics for the edited range are never empty and no
capability call errors, the retry loop of `check_code_correctness` executes
exactly 5 body iterations — the configured `max_tries` — and then
terminates, returning `Ok(())` rather than a hard failure. -/
theorem check_code_correctness_terminates_at_cap
    (env : Nat → CorrectnessIterEnv)
    (hok : ∀ k, iterCallsSucceed (env k))
    (hne : ∀ k d, (env k).lsp_diagnostics = Except.ok d → d ≠ []) :
    (check_code_correctness env).1 = Except.ok () ∧
    (check_code_correctness env).2.1 = 5 :=
  check_code_correctness_go_all_loopAgain env
    (fun k => check_iteration_loopAgain (env k) (hok k) (hne k)) 5 0

/-- Witness for C7: with every call succeeding and one diagnostic always
outstanding, the loop runs exactly 5 iterations and returns ok. -/
theorem check_code_correctness_terminates_at_cap_witness :
    (check_code_correctness (fun _ => constCorrEnv)).1 = Except.ok () ∧
    (check_code_correctness (fun _ => constCorrEnv)).2.1 = 5 :=
  check_code_correctness_terminates_at_cap (fun _ => constCorrEnv)
    (fun _ => ⟨⟨_, rfl⟩, ⟨_, rfl⟩, ⟨_, rfl⟩, ⟨_, rfl⟩, ⟨_, rfl⟩, ⟨_, rfl⟩,
      ⟨_, rfl⟩, ⟨_, rfl⟩, ⟨_, rfl⟩, ⟨_, rfl⟩, ⟨_, rfl⟩⟩)
    (fun k d h => by
      have h2 : Except.ok [({ message := "mismatched types" } : Diagnostic)]
          = Except.ok d := h
      injection h2 with h3
      rw [← h3]
      decide)

/-- C8: in an iteration with non-empty diagnostics (and the calls up to the
selection succeeding), the LLM-chosen index dispatches as follows: an index
at or beyond the quick-fix list's length causes a fresh corrective edit
(`code_correctness_with_edits` then applying the edit) and no quick-fix
invocation, and any smaller index causes the quick-fix invocation capability
to be called with exactly that index and no fresh edit. -/
theorem check_iteration_index_dispatch
    (ie : CorrectnessIterEnv) (s1 s2 : EditableSymbol) (f1 f2 : String)
    (d : List Diagnostic) (qf : List QuickFixOption) (sel : CodeCorrectnessAction)
    (h1 : ie.find_symbol_first = Except.ok s1)
    (h2 : ie.file_open_first = Except.ok f1)
    (h3 : ie.apply_edits_first = Except.ok ())
    (h4 : ie.find_symbol_second = Except.ok s2)
    (h5 : ie.file_open_second = Except.ok f2)
    (h6 : ie.lsp_diagnostics = Except.ok d)
    (hd : d ≠ [])
    (h7 : ie.quick_fix_actions = Except.ok qf)
    (h8 : ie.action_selection = Except.ok sel) :
    ((qf.length : Int) ≤ sel.index →
      CorrectnessCall.codeCorrectnessWithEdits ∈ (check_iteration ie).1 ∧
      ∀ i, CorrectnessCall.invokeQuickAction i ∉ (check_iteration ie).1) ∧
    (sel.index < (qf.length : Int) →
      CorrectnessCall.invokeQuickAction sel.index ∈ (check_iteration ie).1 ∧
      CorrectnessCall.codeCorrectnessWithEdits ∉ (check_iteration ie).1) := by
  have hde : d.isEmpty = false := by
    rcases d with _ | ⟨x, d⟩
    · exact absurd rfl hd
    · rfl
  constructor
  · intro hge
    have hif : (sel.index ≥ (qf.length : Int)) = True := by
      simp [ge_iff_le, hge]
    simp only [check_iteration, h1, h2, h3, h4, h5, h6, h7, h8, hde,
      Bool.false_eq_true, if_false, hif, if_true]
    cases ie.fixed_code with
    | error e => simp
    | ok fc =>
      cases ie.apply_fixed_edits with
      | error e => simp
      | ok u => simp
  · intro hlt
    have hif : (sel.index ≥ (qf.length : Int)) = False := by
      simp [ge_iff_le, not_le.mpr hlt]
    simp only [check_iteration, h1, h2, h3, h4, h5, h6, h7, h8, hde,
      Bool.false_eq_true, if_false, hif]
    cases ie.quick_action_invocation with
    | error e => simp
    | ok qr => simp

/-- Witness for C8: with no quick fixes offered and index 0 selected the
fresh-edit capability is called, and with two quick fixes offered and index
1 selected the quick-fix invocation capability is called with index 1. -/
theorem check_iteration_index_dispatch_witness :
    (CorrectnessCall.codeCorrectnessWithEdits ∈ (check_iteration constCorrEnv).1 ∧
      CorrectnessCall.invokeQuickAction 0 ∉ (check_iteration constCorrEnv).1) ∧
    (CorrectnessCall.invokeQuickAction 1 ∈ (check_iteration quickFixIterEnv).1 ∧
      CorrectnessCall.codeCorrectnessWithEdits ∉ (check_iteration quickFixIterEnv).1) := by
  constructor
  · have h := (check_iteration_index_dispatch constCorrEnv
      { range := sampleRange } { range := sampleRange }
      "fn parseConfig()" "fn parseConfig()"
      [{ message := "mismatched types" }] []
      { thinking := "rewrite the body", index := 0 }
      rfl rfl rfl rfl rfl rfl (by decide) rfl rfl).1 (by decide)
    exact ⟨h.1, h.2 0⟩
  · exact (check_iteration_index_dispatch quickFixIterEnv
      { range := sampleRange } { range := sampleRange }
      "fn parseConfig()" "fn parseConfig()"
      [{ message := "mismatched types" }]
      [{ label := "import Config" }, { label := "add return type" }]
      { thinking := "take the second fix", index := 1 }
      rfl rfl rfl rfl rfl rfl (by decide) rfl rfl).2 (by decide)

end Sidecar
